import Mathlib

/-!
# Verification of the claude-code-proxy forwarding client

Shallow embedding of `src/core/client.py` (`OpenAIClient`): the cancellation
registry, the non-streaming forwarding call `create_chat_completion`, the
streaming call `create_chat_completion_stream` with its retry loop, the
retryability check `is_retryable_error`, the message classifier
`classify_openai_error`, and the SSE framing of streamed chunks
(`json.dumps(chunk_dict, ensure_ascii=False)` wrapped as `data: <json>`).

Python strings are `String`/`List Char`, dicts are association lists in
insertion order, JSON values are the `Json` inductive with integer numbers,
`asyncio` concurrency is resolved by explicit oracles (which task wins the
cancellation race, what each upstream attempt delivers, the value of the
cancellation flag at each checkpoint).
-/

namespace ProxyClient

/-! ## Character and string helpers -/

/-- Decimal digit character for a digit value below ten. -/
def digitCh (d : Nat) : Char := Char.ofNat (48 + d)

/-- Little-endian decimal digits of `n`, with explicit fuel (fuel `n` suffices). -/
def natDigitsRev : Nat → Nat → List Nat
  | 0, _ => []
  | _ + 1, 0 => []
  | fu + 1, n + 1 => ((n + 1) % 10) :: natDigitsRev fu ((n + 1) / 10)

/-- Decimal representation of a natural, most significant digit first,
matching Python `str(n)` for `n ≥ 0`. -/
def natChars (n : Nat) : List Char :=
  if n = 0 then ['0'] else ((natDigitsRev n n).map digitCh).reverse

/-- Decimal string of a natural. -/
def natStr (n : Nat) : String := ⟨natChars n⟩

/-- Decimal representation of an integer, matching Python `str(n)`. -/
def intChars : Int → List Char
  | .ofNat n => natChars n
  | .negSucc n => '-' :: natChars (n + 1)

/-- Test `startsWithL hay needle`: `needle` is a prefix of `hay` (on char lists). -/
def startsWithL : List Char → List Char → Bool
  | _, [] => true
  | [], _ :: _ => false
  | c :: cs, d :: ds => c = d && startsWithL cs ds

/-- Substring containment on char lists, matching Python `needle in hay`. -/
def containsSub : List Char → List Char → Bool
  | hay, needle =>
    if startsWithL hay needle then true
    else
      match hay with
      | [] => false
      | _ :: t => containsSub t needle

/-- Python `s.lower()` (ASCII case folding is all the source relies on). -/
def lowerL (s : List Char) : List Char := s.map Char.toLower

/-- Test `strHas hay needle`: Python `needle in hay` on strings. -/
def strHas (hay needle : String) : Bool := containsSub hay.data needle.data

/-! ## JSON values and the serializer

`Json` embeds the chunk dictionaries produced by `chunk.model_dump()`;
`printJson` is `json.dumps(v, ensure_ascii=False)` with the default
separators `", "` and `": "` and the default escaping of `\`, `"` and
control characters (short escapes for `\b \t \n \f \r`, `\u00xx` for the
other control characters; everything else is passed through verbatim). -/

inductive Json where
  | null : Json
  | bool : Bool → Json
  | num : Int → Json
  | str : List Char → Json
  | arr : List Json → Json
  | obj : List (List Char × Json) → Json

/-- Hexadecimal digit character (lowercase, as `'\\u{0:04x}'.format(i)` emits). -/
def hexDigitCh (n : Nat) : Char :=
  if n < 10 then Char.ofNat (48 + n) else Char.ofNat (87 + n)

/-- Escape of one character inside a JSON string literal
(`ESCAPE_DCT` of Python's `json.encoder` with `ensure_ascii=False`). -/
def escapeChar (c : Char) : List Char :=
  if c = '\\' then ['\\', '\\']
  else if c = '"' then ['\\', '"']
  else if c = Char.ofNat 8 then ['\\', 'b']
  else if c = Char.ofNat 12 then ['\\', 'f']
  else if c = Char.ofNat 10 then ['\\', 'n']
  else if c = Char.ofNat 13 then ['\\', 'r']
  else if c = Char.ofNat 9 then ['\\', 't']
  else if c.toNat < 32 then
    ['\\', 'u', '0', '0', hexDigitCh (c.toNat / 16), hexDigitCh (c.toNat % 16)]
  else [c]

/-- Escape every character of a JSON string body. -/
def escString : List Char → List Char
  | [] => []
  | c :: cs => escapeChar c ++ escString cs

/-- JSON string literal: quotes around the escaped body. -/
def printStrLit (s : List Char) : List Char := '"' :: (escString s ++ ['"'])

mutual

/-- Serialization of a JSON value, one character list, as
`json.dumps(v, ensure_ascii=False)` renders it. -/
def printJson : Json → List Char
  | .null => "null".data
  | .bool true => "true".data
  | .bool false => "false".data
  | .num n => intChars n
  | .str s => printStrLit s
  | .arr [] => ['[', ']']
  | .arr (v :: vs) => '[' :: (printItems (v :: vs) ++ [']'])
  | .obj [] => ['\x7b', '\x7d']
  | .obj (f :: fs) => '\x7b' :: (printMembers (f :: fs) ++ ['\x7d'])

/-- Array items joined by the default item separator `", "`. -/
def printItems : List Json → List Char
  | [] => []
  | [v] => printJson v
  | v :: v' :: vs => printJson v ++ (',' :: ' ' :: printItems (v' :: vs))

/-- Object members `"key": value` joined by `", "`. -/
def printMembers : List (List Char × Json) → List Char
  | [] => []
  | [(k, v)] => printStrLit k ++ (':' :: ' ' :: printJson v)
  | (k, v) :: f :: fs =>
      printStrLit k ++ (':' :: ' ' :: printJson v) ++ (',' :: ' ' :: printMembers (f :: fs))

end

/-- The serialization `json.dumps(u, ensure_ascii=False)` as a `String`. -/
def jsonSerialize (u : Json) : String := ⟨printJson u⟩

/-- One streamed chunk framed as an SSE event, the f-string yield of
client.py line 192: the prefix `data: ` followed by the chunk's JSON. -/
def frameChunk (u : Json) : String := "data: " ++ jsonSerialize u

/-- The stream terminator `yield "data: [DONE]"` (client.py line 196). -/
def doneLine : String := "data: [DONE]"

/-! ## A JSON decoder

The spec's round-trip property speaks of JSON-decoding the framed payload, so
a decoder is modelled here (from the spec's words: a standard JSON reader
accepting the wire format), to be run against the serializer above. -/

/-- Decimal digit test. -/
def isDigitCh (c : Char) : Bool := 48 ≤ c.toNat && c.toNat ≤ 57

/-- JSON whitespace. -/
def isWsCh (c : Char) : Bool :=
  c = ' ' || c = Char.ofNat 9 || c = Char.ofNat 10 || c = Char.ofNat 13

/-- Drop leading JSON whitespace. -/
def skipWs : List Char → List Char
  | [] => []
  | c :: r => if isWsCh c then skipWs r else c :: r

/-- Value of a hexadecimal digit character. -/
def hexVal (c : Char) : Option Nat :=
  if 48 ≤ c.toNat && c.toNat ≤ 57 then some (c.toNat - 48)
  else if 97 ≤ c.toNat && c.toNat ≤ 102 then some (c.toNat - 87)
  else if 65 ≤ c.toNat && c.toNat ≤ 70 then some (c.toNat - 55)
  else none

/-- Read a nonempty run of decimal digits as a natural number. -/
def parseNatChars (s : List Char) : Option (Nat × List Char) :=
  let ds := s.takeWhile isDigitCh
  if ds.isEmpty then none
  else some (ds.foldl (fun a c => 10 * a + (c.toNat - 48)) 0, s.dropWhile isDigitCh)

/-- Read a JSON string body after the opening quote, undoing the escapes. -/
def parseStrBody : List Char → Option (List Char × List Char)
  | [] => none
  | c :: r =>
    if c = '"' then some ([], r)
    else if c = '\\' then
      match r with
      | [] => none
      | e :: r2 =>
        if e = '"' then (parseStrBody r2).map fun p => ('"' :: p.1, p.2)
        else if e = '\\' then (parseStrBody r2).map fun p => ('\\' :: p.1, p.2)
        else if e = '/' then (parseStrBody r2).map fun p => ('/' :: p.1, p.2)
        else if e = 'b' then (parseStrBody r2).map fun p => (Char.ofNat 8 :: p.1, p.2)
        else if e = 'f' then (parseStrBody r2).map fun p => (Char.ofNat 12 :: p.1, p.2)
        else if e = 'n' then (parseStrBody r2).map fun p => (Char.ofNat 10 :: p.1, p.2)
        else if e = 'r' then (parseStrBody r2).map fun p => (Char.ofNat 13 :: p.1, p.2)
        else if e = 't' then (parseStrBody r2).map fun p => (Char.ofNat 9 :: p.1, p.2)
        else if e = 'u' then
          match r2 with
          | h1 :: h2 :: h3 :: h4 :: r3 =>
            match hexVal h1, hexVal h2, hexVal h3, hexVal h4 with
            | some a, some b, some cc, some d =>
                (parseStrBody r3).map fun p =>
                  (Char.ofNat (((a * 16 + b) * 16 + cc) * 16 + d) :: p.1, p.2)
            | _, _, _, _ => none
          | _ => none
        else none
    else (parseStrBody r).map fun p => (c :: p.1, p.2)

mutual

/-- Read one JSON value; the fuel bounds the nesting work. -/
def parseVal : Nat → List Char → Option (Json × List Char)
  | 0, _ => none
  | fu + 1, s =>
    match skipWs s with
    | [] => none
    | c :: r =>
      if c = 'n' then
        match r with
        | 'u' :: 'l' :: 'l' :: r2 => some (.null, r2)
        | _ => none
      else if c = 't' then
        match r with
        | 'r' :: 'u' :: 'e' :: r2 => some (.bool true, r2)
        | _ => none
      else if c = 'f' then
        match r with
        | 'a' :: 'l' :: 's' :: 'e' :: r2 => some (.bool false, r2)
        | _ => none
      else if c = '"' then
        (parseStrBody r).map fun p => (.str p.1, p.2)
      else if c = '[' then
        match skipWs r with
        | [] => none
        | c2 :: r2 =>
          if c2 = ']' then some (.arr [], r2)
          else (parseItems fu (c2 :: r2)).map fun p => (.arr p.1, p.2)
      else if c = '\x7b' then
        match skipWs r with
        | [] => none
        | c2 :: r2 =>
          if c2 = '\x7d' then some (.obj [], r2)
          else (parseMembers fu (c2 :: r2)).map fun p => (.obj p.1, p.2)
      else if c = '-' then
        (parseNatChars r).map fun p => (.num (-(p.1 : Int)), p.2)
      else if isDigitCh c then
        (parseNatChars (c :: r)).map fun p => (.num (p.1 : Int), p.2)
      else none

/-- Read the comma-separated items of a nonempty array, up to `]`. -/
def parseItems : Nat → List Char → Option (List Json × List Char)
  | 0, _ => none
  | fu + 1, s =>
    match parseVal fu s with
    | none => none
    | some (v, r) =>
      match skipWs r with
      | [] => none
      | c :: r2 =>
        if c = ',' then (parseItems fu r2).map fun p => (v :: p.1, p.2)
        else if c = ']' then some ([v], r2)
        else none

/-- Read the comma-separated members of a nonempty object, up to the closing
brace. -/
def parseMembers : Nat → List Char → Option (List (List Char × Json) × List Char)
  | 0, _ => none
  | fu + 1, s =>
    match skipWs s with
    | [] => none
    | c :: r =>
      if c = '"' then
        match parseStrBody r with
        | none => none
        | some (k, r1) =>
          match skipWs r1 with
          | [] => none
          | c1 :: r2 =>
            if c1 = ':' then
              match parseVal fu r2 with
              | none => none
              | some (v, r3) =>
                match skipWs r3 with
                | [] => none
                | c3 :: r4 =>
                  if c3 = ',' then (parseMembers fu r4).map fun p => ((k, v) :: p.1, p.2)
                  else if c3 = '\x7d' then some ([(k, v)], r4)
                  else none
            else none
      else none

end

/-- Decode a complete JSON document (trailing whitespace allowed). -/
def jsonDecode (s : List Char) : Option Json :=
  match parseVal (s.length + 1) s with
  | some (v, r) => if skipWs r = [] then some v else none
  | none => none

/-! ## Upstream errors and exceptions

One constructor per exception class the `except` chains distinguish.  In the
openai library `AuthenticationError`, `RateLimitError`, `BadRequestError` and
every other `APIStatusError` carry a fixed `status_code` (401, 429, 400, the
upstream status); `APITimeoutError`/`APIConnectionError` are `APIError`
subclasses without a `status_code` attribute; `apiBase` is a bare `APIError`
without `status_code`; `generic` is any other `Exception` (type name and
message).  `PyExc.http` is a raised `fastapi.HTTPException`, whose `str` is
`"<status>: <detail>"` — it is an ordinary `Exception`, which is what lets
the blanket `except Exception` clauses catch the 499 cancellation raise. -/

inductive UpstreamError where
  | authentication : String → UpstreamError
  | rateLimit : String → UpstreamError
  | badRequest : String → UpstreamError
  | apiTimeout : String → UpstreamError
  | apiConnection : String → UpstreamError
  | apiStatus : Nat → String → UpstreamError
  | apiBase : String → UpstreamError
  | generic : String → String → UpstreamError
deriving DecidableEq

/-- An exception flowing through the streaming loop's `try`: either an
upstream/client-library error or a raised `HTTPException`. -/
inductive PyExc where
  | upstream : UpstreamError → PyExc
  | http : Nat → String → PyExc
deriving DecidableEq

/-- Python `str(e)` for the modelled exceptions: the carried message, and
`"<status>: <detail>"` for `HTTPException` (starlette's `__str__`). -/
def pyStr : PyExc → String
  | .upstream (.authentication m) => m
  | .upstream (.rateLimit m) => m
  | .upstream (.badRequest m) => m
  | .upstream (.apiTimeout m) => m
  | .upstream (.apiConnection m) => m
  | .upstream (.apiStatus _ m) => m
  | .upstream (.apiBase m) => m
  | .upstream (.generic _ m) => m
  | .http st d => natStr st ++ ": " ++ d

/-- Test `isinstance(error, (APITimeoutError, APIConnectionError))`
(`APITimeoutError` subclasses `APIConnectionError`). -/
def isTimeoutConn : PyExc → Bool
  | .upstream (.apiTimeout _) => true
  | .upstream (.apiConnection _) => true
  | _ => false

/-- Test `isinstance(error, APIError)`: every openai error class, including the
timeout/connection ones, but not `HTTPException` or generic exceptions. -/
def isAPIError : PyExc → Bool
  | .upstream (.generic _ _) => false
  | .upstream _ => true
  | .http _ _ => false

/-- Attribute lookup `getattr(error, 'status_code', None)`. -/
def statusCodeOpt : PyExc → Option Nat
  | .upstream (.authentication _) => some 401
  | .upstream (.rateLimit _) => some 429
  | .upstream (.badRequest _) => some 400
  | .upstream (.apiStatus st _) => some st
  | _ => none

/-- The retry-hint substrings of `is_retryable_error` (client.py 310-317). -/
def retryablePatterns : List String :=
  ["timeout", "timed out", "connection", "network", "temporarily unavailable", "try again"]

/-- Method `OpenAIClient.is_retryable_error` (client.py 295-318): timeout/connection
errors are retryable; API errors with status 408/429/502/503/504 are
retryable; otherwise the lowercased message is scanned for retry hints. -/
def is_retryable_error (e : PyExc) : Bool :=
  if isTimeoutConn e then true
  else if isAPIError e &&
      (match statusCodeOpt e with
       | some st => st = 408 || st = 429 || st = 502 || st = 503 || st = 504
       | none => false) then true
  else
    retryablePatterns.any fun p => containsSub (lowerL (pyStr e).data) p.data

/-- Method `OpenAIClient.classify_openai_error` (client.py 320-360): a chain of
substring tests over the lowercased message, each returning a fixed guidance
string, falling back to the original message. -/
def classify_openai_error (errorDetail : String) : String :=
  let s : List Char := lowerL errorDetail.data
  if containsSub s "timeout".data || containsSub s "timed out".data then
    "请求超时：流式输出未完成时连接被关闭。建议：\n" ++
    "1. 增加 READ_TIMEOUT 环境变量（当前默认600秒）\n" ++
    "2. 检查网络连接稳定性\n" ++
    "3. 如果使用普通账号，考虑升级到 PTU 账号\n" ++
    "4. 启用 STREAM_RETRY_ENABLED=true 自动重试"
  else if containsSub s "connection".data || containsSub s "network".data then
    "网络连接错误：无法连接到 OpenAI API。建议：\n" ++
    "1. 检查网络连接\n" ++
    "2. 验证 OPENAI_BASE_URL 配置是否正确\n" ++
    "3. 启用 STREAM_RETRY_ENABLED=true 自动重试临时网络问题"
  else if containsSub s "unsupported_country_region_territory".data ||
      containsSub s "country, region, or territory not supported".data then
    "OpenAI API is not available in your region. Consider using a VPN or Azure OpenAI service."
  else if containsSub s "invalid_api_key".data || containsSub s "unauthorized".data then
    "Invalid API key. Please check your OPENAI_API_KEY configuration."
  else if containsSub s "rate_limit".data || containsSub s "quota".data then
    "Rate limit exceeded. Please wait and try again, or upgrade your API plan."
  else if containsSub s "model".data &&
      (containsSub s "not found".data || containsSub s "does not exist".data) then
    "Model not found. Please check your BIG_MODEL and SMALL_MODEL configuration."
  else if containsSub s "billing".data || containsSub s "payment".data then
    "Billing issue. Please check your OpenAI account billing status."
  else errorDetail

/-! ## The streaming retry loop -/

/-- The retry configuration of the client constructor:
`stream_retry_enabled`, `stream_max_retries`, `stream_retry_delay`. -/
structure StreamCfg where
  retryEnabled : Bool
  maxRetries : Nat
  baseDelay : ℚ
deriving DecidableEq

/-- Assignment `max_retries = self.stream_max_retries if self.stream_retry_enabled else 0`
(client.py line 165). -/
def maxEff (c : StreamCfg) : Nat := if c.retryEnabled then c.maxRetries else 0

/-- What an `except` clause of the streaming loop does with an exception:
sleep a backoff delay and continue the loop, or raise an `HTTPException`. -/
inductive HAction where
  | retry : ℚ → HAction
  | raiseH : Nat → String → HAction
deriving DecidableEq

/-- The `except` chain of `create_chat_completion_stream` (client.py 205-279),
in clause order: `AuthenticationError`, `RateLimitError`, `BadRequestError`,
`(APITimeoutError, APIConnectionError)`, `APIError`, `Exception`.  The delay
of every retry is `self.stream_retry_delay * (2 ** retry_count)`. -/
def handleStreamExc (c : StreamCfg) (rc : Nat) (e : PyExc) : HAction :=
  match e with
  | .upstream (.authentication m) => .raiseH 401 (classify_openai_error m)
  | .upstream (.rateLimit m) => .raiseH 429 (classify_openai_error m)
  | .upstream (.badRequest m) => .raiseH 400 (classify_openai_error m)
  | .upstream (.apiTimeout m) =>
      if rc < maxEff c && c.retryEnabled then .retry (c.baseDelay * 2 ^ rc)
      else .raiseH 504 (classify_openai_error m)
  | .upstream (.apiConnection m) =>
      if rc < maxEff c && c.retryEnabled then .retry (c.baseDelay * 2 ^ rc)
      else .raiseH 504 (classify_openai_error m)
  | .upstream (.apiStatus st m) =>
      if is_retryable_error (.upstream (.apiStatus st m)) && rc < maxEff c && c.retryEnabled
      then .retry (c.baseDelay * 2 ^ rc)
      else .raiseH st (classify_openai_error m)
  | .upstream (.apiBase m) =>
      if is_retryable_error (.upstream (.apiBase m)) && rc < maxEff c && c.retryEnabled
      then .retry (c.baseDelay * 2 ^ rc)
      else .raiseH 500 (classify_openai_error m)
  | .upstream (.generic ty m) =>
      if is_retryable_error (.upstream (.generic ty m)) && rc < maxEff c && c.retryEnabled
      then .retry (c.baseDelay * 2 ^ rc)
      else .raiseH 500 ("Unexpected error: " ++ m)
  | .http st d =>
      if is_retryable_error (.http st d) && rc < maxEff c && c.retryEnabled
      then .retry (c.baseDelay * 2 ^ rc)
      else .raiseH 500 ("Unexpected error: " ++ pyStr (.http st d))

/-- Something the generator's execution produces: a yielded SSE line or a
backoff sleep of a given duration. -/
inductive StreamEvent where
  | yield : String → StreamEvent
  | sleep : ℚ → StreamEvent
deriving DecidableEq

/-- How the generator terminates. `ok` is the single success exit (after
yielding the terminator); `raised` is an `HTTPException` propagating out of
the attempt loop; `exhaustedRaise` is the post-loop
`if last_error and retry_count > max_retries` raise (client.py 282-284);
`fellThrough` is the loop ending by its condition with no raise. -/
inductive StreamTerm where
  | ok : StreamTerm
  | raised : Nat → String → StreamTerm
  | exhaustedRaise : Nat → String → StreamTerm
  | fellThrough : StreamTerm
deriving DecidableEq

/-- Outcome of one streaming call: the produced events, the termination, and
whether the cleanup block (client.py 290-293) was reached. -/
structure SRun where
  events : List StreamEvent
  term : StreamTerm
  cleaned : Bool
deriving DecidableEq

/-- One upstream attempt, as the oracle describes it: the chunks the upstream
stream delivers, then `none` for normal exhaustion or `some e` for an
exception raised by `create(**request)` or mid-iteration. -/
def Attempt := List Json × Option PyExc

/-- The `async for chunk in streaming_completion` body (client.py 183-193):
before each chunk, if a token is registered and its signal is set, raise
`HTTPException(499)`; otherwise frame and yield the chunk.  `sig k` is the
value of `self.active_requests[request_id].is_set()` at the `k`-th checkpoint
of the whole call; returns the yielded events, the next checkpoint index, and
the cancellation exception if one was raised. -/
def runChunks (hasId : Bool) (sig : Nat → Bool) :
    Nat → List Json → List StreamEvent × Nat × Option PyExc
  | ck, [] => ([], ck, none)
  | ck, u :: us =>
    if hasId && sig ck then
      ([], ck, some (.http 499 "Request cancelled by client"))
    else
      let r := runChunks hasId sig (ck + 1) us
      (.yield (frameChunk u) :: r.1, r.2)

/-- The code after the `while` loop (client.py 281-293): raise 504 if
`last_error` is set and `retry_count > max_retries`, else reach the cleanup
block and end the generator. -/
def postLoop (c : StreamCfg) (rc : Nat) (le : Option PyExc)
    (evs : List StreamEvent) (term : StreamTerm) : SRun :=
  match le with
  | some e =>
      if maxEff c < rc then
        ⟨evs, .exhaustedRaise 504 (classify_openai_error (pyStr e)), false⟩
      else ⟨evs, term, true⟩
  | none => ⟨evs, term, true⟩

/-- The `while retry_count <= max_retries` loop (client.py 168-284).  `fuel`
is `maxEff c + 1 - rc` at every canonical call, so the structural recursion
mirrors the loop exactly: the guard is checked first, a retry re-enters with
`retry_count + 1` and `last_error = some e`, a `break` (successful
exhaustion) falls to `postLoop` with the terminator already yielded, and a
raising handler propagates immediately without reaching the cleanup block. -/
def streamIter (c : StreamCfg) (hasId : Bool) (sig : Nat → Bool) (att : Nat → Attempt) :
    Nat → Nat → Option PyExc → Nat → SRun
  | fuel, rc, le, ck =>
    if maxEff c < rc then postLoop c rc le [] .fellThrough
    else
      match fuel with
      | 0 => postLoop c rc le [] .fellThrough
      | fuel + 1 =>
        let a := att rc
        let r := runChunks hasId sig ck a.1
        -- a cancellation raised inside the iteration preempts the upstream
        -- tail error; with none of the two the stream exhausted normally
        let exc : Option PyExc := r.2.2.or a.2
        match exc with
        | none => postLoop c rc le (r.1 ++ [.yield doneLine]) .ok
        | some e =>
          match handleStreamExc c rc e with
          | .retry d =>
            let rest := streamIter c hasId sig att fuel (rc + 1) (some e) r.2.1
            ⟨r.1 ++ .sleep d :: rest.events, rest.term, rest.cleaned⟩
          | .raiseH st dt => ⟨r.1, .raised st dt, false⟩

/-! ## The request dictionary mutation -/

/-- Association-list lookup (Python `d[k]` / `k in d`). -/
def lookupKey (m : List (List Char × Json)) (k : List Char) : Option Json :=
  match m with
  | [] => none
  | (k', v) :: rest => if k' = k then some v else lookupKey rest k

/-- Python `d[k] = v`: replace in place when the key exists (insertion order
kept), append otherwise. -/
def setKey (m : List (List Char × Json)) (k : List Char) (v : Json) :
    List (List Char × Json) :=
  match m with
  | [] => [(k, v)]
  | (k', v') :: rest => if k' = k then (k', v) :: rest else (k', v') :: setKey rest k v

/-- The in-place mutation at the top of every attempt (client.py 170-174):
set the `stream` key to `True`; insert an empty dict under `stream_options`
if that key is absent; `request["stream_options"]["include_usage"] = True`.  Returns
`none` when the caller-supplied `stream_options` is not a dict (the item
assignment would raise a `TypeError`). -/
def prepareStreamRequest (req : List (List Char × Json)) :
    Option (List (List Char × Json)) :=
  let r1 := setKey req "stream".data (.bool true)
  let r2 :=
    match lookupKey r1 "stream_options".data with
    | none => setKey r1 "stream_options".data (.obj [])
    | some _ => r1
  match lookupKey r2 "stream_options".data with
  | some (.obj so) =>
      some (setKey r2 "stream_options".data (.obj (setKey so "include_usage".data (.bool true))))
  | _ => none

/-! ## The full calls, with the registry -/

/-- Add an id to the set of active request ids
(`self.active_requests[request_id] = cancel_event`). -/
def insertId (reg : List String) (id : String) : List String :=
  if id ∈ reg then reg else reg ++ [id]

/-- Remove an id (`del self.active_requests[request_id]`, guarded by
membership). -/
def removeId (reg : List String) (id : String) : List String :=
  reg.filter fun x => x ≠ id

/-- Result of one `create_chat_completion_stream` call: the generator run,
the registry after the generator finished, and the caller's request dict
after the in-place mutation. -/
structure StreamCall where
  run : SRun
  registryAfter : List String
  requestAfter : Option (List (List Char × Json))

/-- Method `OpenAIClient.create_chat_completion_stream` (client.py 156-293): register
a token when a request id is supplied, run the attempt loop (attempt
behaviors given by the oracle `att`, cancellation checkpoints by `sig`), and
remove the registry entry only if the cleanup block was reached. -/
def create_chat_completion_stream (c : StreamCfg) (reg : List String)
    (reqId : Option String) (sig : Nat → Bool) (att : Nat → Attempt)
    (req : List (List Char × Json)) : StreamCall :=
  let reg1 := match reqId with | some id => insertId reg id | none => reg
  let r := streamIter c reqId.isSome sig att (maxEff c + 1) 0 none 0
  { run := r
    registryAfter :=
      if r.cleaned then
        match reqId with | some id => removeId reg1 id | none => reg1
      else reg1
    requestAfter := prepareStreamRequest req }

/-- The `except` chain of the non-streaming `create_chat_completion`
(client.py 120-149): `AuthenticationError` 401, `RateLimitError` 429,
`BadRequestError` 400, `APIError` with `getattr(e, 'status_code', 500)`,
anything else 500 with an `Unexpected error:` message. -/
def dispatchNonStream : PyExc → Nat × String
  | .upstream (.authentication m) => (401, classify_openai_error m)
  | .upstream (.rateLimit m) => (429, classify_openai_error m)
  | .upstream (.badRequest m) => (400, classify_openai_error m)
  | .upstream (.apiTimeout m) => (500, classify_openai_error m)
  | .upstream (.apiConnection m) => (500, classify_openai_error m)
  | .upstream (.apiStatus st m) => (st, classify_openai_error m)
  | .upstream (.apiBase m) => (500, classify_openai_error m)
  | .upstream (.generic _ m) => (500, "Unexpected error: " ++ m)
  | .http st d => (500, "Unexpected error: " ++ pyStr (.http st d))

/-- Method `OpenAIClient.create_chat_completion` (client.py 78-154).  `cancelWins`
resolves the `asyncio.wait` race: it is `true` exactly when `cancel_task`
ends up in `done`, i.e. when the cancellation signal is set before the
upstream call completes.  The 499 raised in that case is itself thrown inside
the `try`, so it is dispatched through the same `except` chain, which wraps
it as a 500 `Unexpected error`.  The `finally` removes the registry entry on
every path. -/
def create_chat_completion (reg : List String) (reqId : Option String)
    (cancelWins : Bool) (upstream : Except UpstreamError Json) :
    Except (Nat × String) Json × List String :=
  let reg1 := match reqId with | some id => insertId reg id | none => reg
  let body : Except (Nat × String) Json :=
    if reqId.isSome && cancelWins then
      .error (dispatchNonStream (.http 499 "Request cancelled by client"))
    else
      match upstream with
      | .ok v => .ok v
      | .error e => .error (dispatchNonStream (.upstream e))
  (body, match reqId with | some id => removeId reg1 id | none => reg1)

/-! ## The cancellation registry with token identity

For the overwrite claim the registry needs token identity: tokens are
numbered in creation order, `sigs t` is the signal of token `t`. -/

/-- Registry state: next fresh token number, the id → token table, one signal
per created token. -/
structure RegState where
  nextTok : Nat
  table : List (String × Nat)
  sigs : List Bool

/-- Lookup in the id → token table. -/
def lookupTok (t : List (String × Nat)) (id : String) : Option Nat :=
  match t with
  | [] => none
  | (id', tok) :: rest => if id' = id then some tok else lookupTok rest id

/-- Python `d[k] = v` on the token table. -/
def setTok (t : List (String × Nat)) (id : String) (tok : Nat) : List (String × Nat) :=
  match t with
  | [] => [(id, tok)]
  | (id', tok') :: rest =>
      if id' = id then (id', tok) :: rest else (id', tok') :: setTok rest id tok

/-- Registration `cancel_event = asyncio.Event(); self.active_requests[request_id] =
cancel_event` (client.py 82-84 and 160-162): a fresh unset token stored under
the id, silently replacing a previous one. -/
def registerTok (s : RegState) (id : String) : RegState :=
  { nextTok := s.nextTok + 1
    table := setTok s.table id s.nextTok
    sigs := s.sigs ++ [false] }

/-- Method `OpenAIClient.cancel_request` (client.py 362-367): set the signal of the
token currently registered under the id, report whether one existed. -/
def cancel_request (s : RegState) (id : String) : RegState × Bool :=
  match lookupTok s.table id with
  | some tok => ({ s with sigs := s.sigs.set tok true }, true)
  | none => (s, false)

/-- What a cancellation checkpoint observes through the registry:
`self.active_requests[request_id].is_set()`. -/
def isSetVia (s : RegState) (id : String) : Bool :=
  match lookupTok s.table id with
  | some tok => s.sigs.getD tok false
  | none => false

/-! ## Derived notions used in the statements -/

/-- Number of backoff sleeps performed during a run. -/
def countSleeps (evs : List StreamEvent) : Nat :=
  evs.countP fun e => match e with | .sleep _ => true | _ => false

/-- Whether the streaming `except` chain would treat the exception as
retryable (given remaining budget): the timeout/connection clause always
does, the dedicated 401/429/400 clauses never do, the `APIError` and generic
clauses consult `is_retryable_error`. -/
def retryKind : PyExc → Bool
  | .upstream (.apiTimeout _) => true
  | .upstream (.apiConnection _) => true
  | .upstream (.authentication _) => false
  | .upstream (.rateLimit _) => false
  | .upstream (.badRequest _) => false
  | .upstream (.apiStatus st m) => is_retryable_error (.upstream (.apiStatus st m))
  | .upstream (.apiBase m) => is_retryable_error (.upstream (.apiBase m))
  | .upstream (.generic ty m) => is_retryable_error (.upstream (.generic ty m))
  | .http st d => is_retryable_error (.http st d)

/-- Status and detail of the `HTTPException` each streaming `except` clause
raises when it does not retry. -/
def terminalOf : PyExc → Nat × String
  | .upstream (.authentication m) => (401, classify_openai_error m)
  | .upstream (.rateLimit m) => (429, classify_openai_error m)
  | .upstream (.badRequest m) => (400, classify_openai_error m)
  | .upstream (.apiTimeout m) => (504, classify_openai_error m)
  | .upstream (.apiConnection m) => (504, classify_openai_error m)
  | .upstream (.apiStatus st m) => (st, classify_openai_error m)
  | .upstream (.apiBase m) => (500, classify_openai_error m)
  | .upstream (.generic _ m) => (500, "Unexpected error: " ++ m)
  | .http st d => (500, "Unexpected error: " ++ pyStr (.http st d))

/-- The caller-supplied `stream_options`, when present, is a dict — the
precondition under which `request["stream_options"]["include_usage"] = True`
does not raise a `TypeError`. -/
def streamOptsOk (req : List (List Char × Json)) : Bool :=
  match lookupKey req "stream_options".data with
  | none => true
  | some (.obj _) => true
  | some _ => false

/-- The decoder's continuation does not start with a digit (so a number
ending right before it is read back whole). -/
def NdHead (rest : List Char) : Prop :=
  ∀ c l, rest = c :: l → isDigitCh c = false

mutual

/-- Fuel sufficient for the decoder on a value's serialization. -/
def jsize : Json → Nat
  | .null => 1
  | .bool _ => 1
  | .num _ => 1
  | .str _ => 1
  | .arr vs => 1 + jsizeItems vs
  | .obj fs => 1 + jsizeMembers fs

/-- Fuel for an item list. -/
def jsizeItems : List Json → Nat
  | [] => 0
  | v :: vs => 1 + jsize v + jsizeItems vs

/-- Fuel for a member list. -/
def jsizeMembers : List (List Char × Json) → Nat
  | [] => 0
  | (_, v) :: fs => 1 + jsize v + jsizeMembers fs

end

/-! # Theorems -/

/-- C1.  The claim says every exit path of both forwarding calls removes
the registry entry.  The streaming call violates it: its cleanup block sits
after the attempt loop and its `try/finally` wraps only `pass`, so any
`HTTPException` raised inside the loop propagates without reaching it.  Here
a call registered under `"req-1"` whose first attempt fails with an
authentication error terminates with status 401 while `"req-1"` is still in
the registry. -/
theorem c1_stream_registry_leak :
    (create_chat_completion_stream ⟨true, 3, 2⟩ [] (some "req-1") (fun _ => false)
      (fun _ => ([], some (.upstream (.authentication "bad key")))) []).run.term =
        .raised 401 "bad key" ∧
    (create_chat_completion_stream ⟨true, 3, 2⟩ [] (some "req-1") (fun _ => false)
      (fun _ => ([], some (.upstream (.authentication "bad key")))) []).run.cleaned =
        false ∧
    (create_chat_completion_stream ⟨true, 3, 2⟩ [] (some "req-1") (fun _ => false)
      (fun _ => ([], some (.upstream (.authentication "bad key")))) []).registryAfter =
        ["req-1"] := by
  exact ⟨rfl, rfl, rfl⟩

/-- C2.  The claim says a cancellation winning the race makes the
non-streaming call terminate with status 499.  The code does raise
`HTTPException(499)`, but inside its own `try`, whose blanket
`except Exception` clause catches it and re-raises it as status 500
`"Unexpected error: 499: Request cancelled by client"`.  The call still never
returns a success and the registry entry is removed. -/
theorem c2_cancel_wrapped_to_500 :
    create_chat_completion [] (some "req-9") true (.ok (Json.obj [])) =
      (.error (500, "Unexpected error: 499: Request cancelled by client"), []) := by
  exact rfl

/-- C3.  The claim says a streaming cancellation checkpoint terminates
the sequence with a 499 `RequestCancelled` failure.  With the signal set from
the second checkpoint on, the run yields exactly the first chunk, emits no
further framed unit and no `[DONE]`, performs no retry — but the 499 raised
at the checkpoint is caught by the loop's blanket `except Exception` clause
and re-raised as status 500 (and the cleanup block is skipped). -/
theorem c3_cancellation_wrapped_to_500 :
    (create_chat_completion_stream ⟨true, 3, 2⟩ [] (some "r1") (fun k => decide (1 ≤ k))
      (fun _ => ([Json.null, Json.null, Json.null], none)) []).run.events =
        [.yield (frameChunk Json.null)] ∧
    (create_chat_completion_stream ⟨true, 3, 2⟩ [] (some "r1") (fun k => decide (1 ≤ k))
      (fun _ => ([Json.null, Json.null, Json.null], none)) []).run.term =
        .raised 500 "Unexpected error: 499: Request cancelled by client" ∧
    (create_chat_completion_stream ⟨true, 3, 2⟩ [] (some "r1") (fun k => decide (1 ≤ k))
      (fun _ => ([Json.null, Json.null, Json.null], none)) []).run.cleaned = false := by
  exact ⟨rfl, rfl, rfl⟩

/-- C5.  Whenever the streaming `except` chain decides to retry at
attempt `rc` (0-based), the attempt counter is below the configured maximum
and the backoff delay is exactly `stream_retry_delay * 2 ^ rc`. -/
theorem c5_backoff_delay (c : StreamCfg) (rc : Nat) (e : PyExc) (d : ℚ)
    (h : handleStreamExc c rc e = .retry d) :
    rc < c.maxRetries ∧ d = c.baseDelay * 2 ^ rc := by
  have hlt : rc < maxEff c → rc < c.maxRetries := by
    intro hm
    unfold maxEff at hm
    split at hm
    · exact hm
    · omega
  cases e with
  | upstream u =>
    cases u <;> simp only [handleStreamExc] at h <;>
      first
      | (split at h
         · rename_i hc
           injection h with h2
           subst h2
           refine ⟨hlt ?_, rfl⟩
           simp only [Bool.and_eq_true, decide_eq_true_eq] at hc
           tauto
         · exact absurd h (by simp))
      | exact absurd h (by simp)
  | http st dt =>
    simp only [handleStreamExc] at h
    split at h
    · rename_i hc
      injection h with h2
      subst h2
      refine ⟨hlt ?_, rfl⟩
      simp only [Bool.and_eq_true, decide_eq_true_eq] at hc
      tauto
    · exact absurd h (by simp)

/-- Witness for C5 at a concrete configuration: a timeout error at attempt 1
with base delay 2 retries after exactly `2 * 2 ^ 1` seconds. -/
theorem c5_backoff_delay_witness : 1 < 3 ∧ (4 : ℚ) = 2 * 2 ^ 1 :=
  c5_backoff_delay ⟨true, 3, 2⟩ 1 (.upstream (.apiTimeout "timed out")) 4
    (by norm_num [handleStreamExc, maxEff])

/-- A retry decision implies remaining budget, enabled retries, and the
exponential backoff delay. -/
theorem handle_retry_spec (c : StreamCfg) (rc : Nat) (e : PyExc) (d : ℚ)
    (h : handleStreamExc c rc e = .retry d) :
    rc < maxEff c ∧ c.retryEnabled = true ∧ d = c.baseDelay * 2 ^ rc := by
  cases e with
  | upstream u =>
    cases u <;> simp only [handleStreamExc] at h <;>
      first
      | (split at h
         · rename_i hc
           injection h with h2
           subst h2
           simp only [Bool.and_eq_true, decide_eq_true_eq] at hc
           refine ⟨by tauto, by tauto, rfl⟩
         · exact absurd h (by simp))
      | exact absurd h (by simp)
  | http st dt =>
    simp only [handleStreamExc] at h
    split at h
    · rename_i hc
      injection h with h2
      subst h2
      simp only [Bool.and_eq_true, decide_eq_true_eq] at hc
      refine ⟨by tauto, by tauto, rfl⟩
    · exact absurd h (by simp)

/-- Yielded chunk events contain no sleeps. -/
theorem countSleeps_yields (l : List Json) :
    countSleeps (l.map fun u => .yield (frameChunk u)) = 0 := by
  induction l with
  | nil => rfl
  | cons u us ih => simp [countSleeps, List.countP_cons]

/-- Counting sleeps distributes over append. -/
theorem countSleeps_append (l₁ l₂ : List StreamEvent) :
    countSleeps (l₁ ++ l₂) = countSleeps l₁ + countSleeps l₂ :=
  List.countP_append _ _ _

/-- With no registered token the chunk loop cancels nothing: it frames and
yields every chunk and advances the checkpoint counter past them. -/
theorem runChunks_noId (sig : Nat → Bool) (ck : Nat) (l : List Json) :
    runChunks false sig ck l =
      (l.map fun u => .yield (frameChunk u), ck + l.length, none) := by
  induction l generalizing ck with
  | nil => simp [runChunks]
  | cons u us ih =>
    simp [runChunks, ih]
    omega

/-- For an exception of retryable kind, the `except` chain retries exactly
when budget remains and retries are enabled, and otherwise raises that
clause's terminal classification. -/
theorem handleStreamExc_of_retryKind (c : StreamCfg) (rc : Nat) (e : PyExc)
    (h : retryKind e = true) :
    handleStreamExc c rc e =
      if rc < maxEff c ∧ c.retryEnabled = true then .retry (c.baseDelay * 2 ^ rc)
      else .raiseH (terminalOf e).1 (terminalOf e).2 := by
  cases e with
  | upstream u =>
    cases u <;> simp_all [retryKind, handleStreamExc, terminalOf]
  | http st dt =>
    simp_all [retryKind, handleStreamExc, terminalOf]

/-- When every attempt fails with an error of retryable kind, the loop from
attempt `rc` performs one sleep per remaining budget unit and then raises the
terminal classification of the error observed at attempt `maxEff c`. -/
theorem streamIter_exhaust (c : StreamCfg) (sig : Nat → Bool) (att : Nat → Attempt)
    (errs : Nat → PyExc)
    (hfa : ∀ i, (att i).2 = some (errs i))
    (hrk : ∀ i, retryKind (errs i) = true) :
    ∀ (fuel rc ck : Nat) (le : Option PyExc),
      rc ≤ maxEff c → fuel + rc = maxEff c + 1 →
      countSleeps (streamIter c false sig att fuel rc le ck).events = maxEff c - rc ∧
      (streamIter c false sig att fuel rc le ck).term =
        .raised (terminalOf (errs (maxEff c))).1 (terminalOf (errs (maxEff c))).2 := by
  intro fuel
  induction fuel with
  | zero => intro rc ck le hrc hsum; omega
  | succ fuel ih =>
    intro rc ck le hrc hsum
    simp only [streamIter]
    rw [if_neg (by omega)]
    simp only [runChunks_noId, hfa rc, Option.or,
      handleStreamExc_of_retryKind c rc (errs rc) (hrk rc)]
    by_cases hlt : rc < maxEff c
    · have hen : c.retryEnabled = true := by
        cases hE : c.retryEnabled
        · simp [maxEff, hE] at hlt
        · rfl
      rw [if_pos ⟨hlt, hen⟩]
      have hrec := ih (rc + 1) (ck + ((att rc).1).length) (some (errs rc))
        (by omega) (by omega)
      refine ⟨?_, hrec.2⟩
      have h1 := hrec.1
      simp [countSleeps, List.countP_append, List.countP_cons, Function.comp_def,
        List.countP_false] at h1 ⊢
      omega
    · rw [if_neg (by tauto)]
      have hre : rc = maxEff c := by omega
      subst hre
      refine ⟨?_, rfl⟩
      simp [countSleeps, List.countP_append, List.countP_cons, Function.comp_def,
        List.countP_false]

/-- C4 counterexample.  A streaming call whose every attempt fails with
a retryable *generic* error (message contains `"timeout"`) and
`maxRetries = 1` performs one backoff sleep and then terminates with status
500 (the generic clause's `Unexpected error` raise), not a 504-style
classification as the claim states. -/
theorem c4_counterexample :
    let r := create_chat_completion_stream ⟨true, 1, 2⟩ [] none (fun _ => false)
      (fun _ => ([], some (.upstream (.generic "Exception" "upstream timeout")))) []
    countSleeps r.run.events = 1 ∧
      r.run.term = .raised 500 "Unexpected error: upstream timeout" ∧
      ∀ d, r.run.term ≠ .raised 504 d := by
  intro r
  refine ⟨rfl, rfl, fun d hd => ?_⟩
  have h0 : r.run.term = .raised 500 "Unexpected error: upstream timeout" := rfl
  rw [h0] at hd
  simp at hd

/-- C4 amended.  A streaming call whose upstream attempt fails with a
retryable-kind error on every attempt performs exactly `maxRetries` backoff
sleeps and then terminates with the raising clause's classification of the
last observed error: 504 for timeout/connection errors, the upstream status
code for retryable API errors, and 500 for retryable generic errors. -/
theorem c4_retry_exhaustion (c : StreamCfg) (reg : List String) (sig : Nat → Bool)
    (att : Nat → Attempt) (errs : Nat → PyExc) (req : List (List Char × Json))
    (hen : c.retryEnabled = true)
    (hfa : ∀ i, (att i).2 = some (errs i))
    (hrk : ∀ i, retryKind (errs i) = true) :
    let r := create_chat_completion_stream c reg none sig att req
    countSleeps r.run.events = c.maxRetries ∧
      r.run.term = .raised (terminalOf (errs c.maxRetries)).1
        (terminalOf (errs c.maxRetries)).2 := by
  intro r
  have hm : maxEff c = c.maxRetries := by simp [maxEff, hen]
  have h := streamIter_exhaust c sig att errs hfa hrk (maxEff c + 1) 0 0 none
    (by omega) (by omega)
  rw [← hm]
  exact ⟨by simpa using h.1, h.2⟩

/-- Witness for C4 (amended): with `maxRetries = 2`, base delay 2 and a
timeout failure on every attempt, the run sleeps twice and raises 504 with
the timeout guidance. -/
theorem c4_retry_exhaustion_witness :
    let r := create_chat_completion_stream ⟨true, 2, 2⟩ [] none (fun _ => false)
      (fun _ => ([], some (.upstream (.apiTimeout "timed out")))) []
    countSleeps r.run.events = 2 ∧
      r.run.term = .raised 504 (classify_openai_error "timed out") := by
  have h := c4_retry_exhaustion ⟨true, 2, 2⟩ [] (fun _ => false)
    (fun _ => ([], some (.upstream (.apiTimeout "timed out"))))
    (fun _ => .upstream (.apiTimeout "timed out")) [] rfl (fun _ => rfl) (fun _ => rfl)
  simpa [terminalOf] using h

/-- Invariant of the attempt loop: entered with `retry_count ≤ max_retries`
and fuel covering the remaining budget, it never reaches the post-loop raise
or the silent fall-through, and a success termination has the `[DONE]`
terminator as the last event. -/
theorem streamIter_inv (c : StreamCfg) (hasId : Bool) (sig : Nat → Bool)
    (att : Nat → Attempt) :
    ∀ (fuel rc ck : Nat) (le : Option PyExc),
      rc ≤ maxEff c → maxEff c + 1 ≤ fuel + rc →
      (∀ st d, (streamIter c hasId sig att fuel rc le ck).term ≠ .exhaustedRaise st d) ∧
      (streamIter c hasId sig att fuel rc le ck).term ≠ .fellThrough ∧
      ((streamIter c hasId sig att fuel rc le ck).term = .ok →
        (streamIter c hasId sig att fuel rc le ck).events.getLast? =
          some (.yield doneLine)) := by
  intro fuel
  induction fuel with
  | zero => intro rc ck le hrc hfu; omega
  | succ fuel ih =>
    intro rc ck le hrc hfu
    simp only [streamIter]
    rw [if_neg (by omega)]
    rcases hE : runChunks hasId sig ck (att rc).1 with ⟨evs, ck2, copt⟩
    dsimp only
    generalize (copt.or (att rc).2) = exc
    cases exc with
    | none =>
      cases le with
      | none =>
        refine ⟨by simp [postLoop], by simp [postLoop], fun _ => ?_⟩
        simp [postLoop]
      | some e =>
        simp only [postLoop]
        rw [if_neg (by omega)]
        refine ⟨by simp, by simp, fun _ => ?_⟩
        simp
    | some e =>
      cases hha : handleStreamExc c rc e with
      | raiseH st dt => exact ⟨by simp [hha], by simp [hha], by simp [hha]⟩
      | retry d =>
        have hlt := (handle_retry_spec c rc e d hha).1
        have hrec := ih (rc + 1) ck2 (some e) (by omega) (by omega)
        simp only [hha]
        refine ⟨fun st dt => by simpa using hrec.1 st dt, by simpa using hrec.2.1,
          fun hok => ?_⟩
        have h3 := hrec.2.2 (by simpa using hok)
        show (evs ++ .sleep d ::
          (streamIter c hasId sig att fuel (rc + 1) (some e) ck2).events).getLast? =
          some (.yield doneLine)
        rcases hrest : (streamIter c hasId sig att fuel (rc + 1) (some e) ck2).events
          with _ | ⟨b, l⟩
        · rw [hrest] at h3
          simp at h3
        · rw [List.getLast?_append_cons, List.getLast?_cons_cons]
          rw [hrest] at h3
          exact h3

/-- C9.  The attempt counter never exceeds the maximum (it is incremented
only under the `retry_count < max_retries` guard), so the post-loop branch
guarded by `retry_count > max_retries` is unreachable, the loop never ends by
its own condition, and every termination of the streaming call is either a
success whose final event is `data: [DONE]` or an exception raised from
inside the attempt loop. -/
theorem c9_exhaustion_branch_unreachable (c : StreamCfg) (reg : List String)
    (reqId : Option String) (sig : Nat → Bool) (att : Nat → Attempt)
    (req : List (List Char × Json)) :
    let r := create_chat_completion_stream c reg reqId sig att req
    (∀ st d, r.run.term ≠ .exhaustedRaise st d) ∧
      r.run.term ≠ .fellThrough ∧
      (r.run.term = .ok → r.run.events.getLast? = some (.yield doneLine)) := by
  intro r
  exact streamIter_inv c reqId.isSome sig att (maxEff c + 1) 0 0 none
    (by omega) (by omega)

/-- Lookup after `d[k] = v`: the set key reads back `v`, others unchanged. -/
theorem lookupKey_setKey (m : List (List Char × Json)) (k q : List Char) (v : Json) :
    lookupKey (setKey m k v) q = if k = q then some v else lookupKey m q := by
  induction m with
  | nil =>
    by_cases h : k = q <;> simp [setKey, lookupKey, h]
  | cons p rest ih =>
    obtain ⟨k0, v0⟩ := p
    by_cases h1 : k0 = k
    · subst h1
      by_cases h2 : k0 = q <;> simp [setKey, lookupKey, h2]
    · by_cases h2 : k0 = q
      · subst h2
        have : ¬k = k0 := fun hk => h1 hk.symm
        simp [setKey, lookupKey, h1, this]
      · simp [setKey, lookupKey, h1, h2, ih]

/-- C8.  `create_chat_completion_stream` mutates the caller's request
dict in place: provided the caller-supplied `stream_options` (if any) is a
dict, after the mutation `request["stream"]` is `True`,
`request["stream_options"]["include_usage"]` is `True` regardless of the
supplied values, the mutated dict is what the caller's reference sees
(`requestAfter` of the call), and every other top-level key is unchanged. -/
theorem c8_request_mutation (c : StreamCfg) (reg : List String)
    (reqId : Option String) (sig : Nat → Bool) (att : Nat → Attempt)
    (req : List (List Char × Json)) (h : streamOptsOk req = true) :
    ∃ r, (create_chat_completion_stream c reg reqId sig att req).requestAfter = some r ∧
      prepareStreamRequest req = some r ∧
      lookupKey r "stream".data = some (.bool true) ∧
      (∃ so, lookupKey r "stream_options".data = some (.obj so) ∧
        lookupKey so "include_usage".data = some (.bool true)) ∧
      ∀ k, k ≠ "stream".data → k ≠ "stream_options".data →
        lookupKey r k = lookupKey req k := by
  have hne : "stream".data ≠ "stream_options".data := by decide
  have hso1 : lookupKey (setKey req "stream".data (.bool true)) "stream_options".data =
      lookupKey req "stream_options".data := by
    rw [lookupKey_setKey, if_neg hne]
  unfold streamOptsOk at h
  unfold create_chat_completion_stream prepareStreamRequest
  rcases hso : lookupKey req "stream_options".data with _ | v
  · -- no stream_options supplied: an empty dict is inserted first
    rw [hso] at hso1
    simp only [hso1, lookupKey_setKey, if_pos rfl]
    refine ⟨_, rfl, rfl, ?_, ⟨_, by rw [lookupKey_setKey, if_pos rfl], by simp [setKey, lookupKey]⟩, ?_⟩
    · rw [lookupKey_setKey, if_neg (fun hk => hne hk.symm),
        lookupKey_setKey, if_neg (fun hk => hne hk.symm),
        lookupKey_setKey, if_pos rfl]
    · intro k hk1 hk2
      rw [lookupKey_setKey, if_neg (fun hk => hk2 hk.symm),
        lookupKey_setKey, if_neg (fun hk => hk2 hk.symm),
        lookupKey_setKey, if_neg (fun hk => hk1 hk.symm)]
  · -- stream_options supplied: it must be a dict
    rcases v with _ | b | n | s | xs | so
    case obj =>
      rw [hso] at hso1
      simp only [hso1, lookupKey_setKey, if_pos rfl]
      refine ⟨_, rfl, rfl, ?_, ⟨_, by rw [lookupKey_setKey, if_pos rfl], by rw [lookupKey_setKey, if_pos rfl]⟩, ?_⟩
      · rw [lookupKey_setKey, if_neg (fun hk => hne hk.symm),
          lookupKey_setKey, if_pos rfl]
      · intro k hk1 hk2
        rw [lookupKey_setKey, if_neg (fun hk => hk2 hk.symm),
          lookupKey_setKey, if_neg (fun hk => hk1 hk.symm)]
    all_goals rw [hso] at h; simp at h

/-- Witness for C8 at a concrete request with no `stream_options` and
`stream` set to `False` by the caller. -/
theorem c8_request_mutation_witness :
    ∃ r, (create_chat_completion_stream ⟨true, 3, 2⟩ [] none (fun _ => false)
        (fun _ => ([], none))
        [("model".data, .str "m".data), ("stream".data, .bool false)]).requestAfter = some r ∧
      prepareStreamRequest
        [("model".data, .str "m".data), ("stream".data, .bool false)] = some r ∧
      lookupKey r "stream".data = some (.bool true) ∧
      (∃ so, lookupKey r "stream_options".data = some (.obj so) ∧
        lookupKey so "include_usage".data = some (.bool true)) ∧
      ∀ k, k ≠ "stream".data → k ≠ "stream_options".data →
        lookupKey r k =
          lookupKey [("model".data, .str "m".data), ("stream".data, .bool false)] k :=
  c8_request_mutation ⟨true, 3, 2⟩ [] none (fun _ => false) (fun _ => ([], none))
    [("model".data, .str "m".data), ("stream".data, .bool false)] rfl

/-- A successful token-table lookup is a table entry. -/
theorem lookupTok_mem (t : List (String × Nat)) (id : String) (tok : Nat)
    (h : lookupTok t id = some tok) : (id, tok) ∈ t := by
  induction t with
  | nil => simp [lookupTok] at h
  | cons p rest ih =>
    obtain ⟨id0, tok0⟩ := p
    by_cases h0 : id0 = id
    · subst h0
      simp [lookupTok] at h
      simp [h]
    · simp [lookupTok, h0] at h
      simp [ih h]

/-- Lookup after storing a token under an id. -/
theorem lookupTok_setTok (t : List (String × Nat)) (id q : String) (tok : Nat) :
    lookupTok (setTok t id tok) q = if id = q then some tok else lookupTok t q := by
  induction t with
  | nil => by_cases h : id = q <;> simp [setTok, lookupTok, h]
  | cons p rest ih =>
    obtain ⟨id0, tok0⟩ := p
    by_cases h1 : id0 = id
    · subst h1
      by_cases h2 : id0 = q <;> simp [setTok, lookupTok, h2]
    · by_cases h2 : id0 = q
      · subst h2
        have : ¬id = id0 := fun hk => h1 hk.symm
        simp [setTok, lookupTok, h1, this]
      · simp [setTok, lookupTok, h1, h2, ih]

/-- C10.  Registering a request under an id already present silently
overwrites the previous token: the registry now maps the id to the fresh
token, the signal observable through the registry is unset no matter what the
replaced token's signal was, and a subsequent `cancel_request id` reports
success and sets only the new token — every other token's stored signal,
including the replaced one's, is untouched. -/
theorem c10_reregister_overwrites (s : RegState) (id : String) (tOld : Nat)
    (hwf1 : ∀ p ∈ s.table, p.2 < s.nextTok) (hwf2 : s.sigs.length = s.nextTok)
    (hold : lookupTok s.table id = some tOld) :
    lookupTok (registerTok s id).table id = some s.nextTok ∧
      tOld ≠ s.nextTok ∧
      isSetVia (registerTok s id) id = false ∧
      (cancel_request (registerTok s id) id).2 = true ∧
      (cancel_request (registerTok s id) id).1.sigs.getD s.nextTok false = true ∧
      (∀ t, t ≠ s.nextTok →
        (cancel_request (registerTok s id) id).1.sigs.getD t false =
          (registerTok s id).sigs.getD t false) ∧
      (registerTok s id).sigs.getD tOld false = s.sigs.getD tOld false := by
  have htOld : tOld < s.nextTok := hwf1 _ (lookupTok_mem _ _ _ hold)
  have hlook : lookupTok (registerTok s id).table id = some s.nextTok := by
    simp [registerTok, lookupTok_setTok]
  have hlen : (s.sigs ++ [false]).length = s.nextTok + 1 := by simp [hwf2]
  have hgetOld : ∀ t, t < s.nextTok → (s.sigs ++ [false]).getD t false = s.sigs.getD t false := by
    intro t ht
    have hl : t < s.sigs.length := by omega
    rw [List.getD_eq_getElem?_getD, List.getD_eq_getElem?_getD,
      List.getElem?_append_left hl]
  have hlook' : lookupTok (setTok s.table id s.nextTok) id = some s.nextTok := by
    rw [lookupTok_setTok]
    simp
  refine ⟨hlook, by omega, ?_, ?_, ?_, ?_, hgetOld tOld htOld⟩
  · simp only [isSetVia, registerTok, hlook']
    rw [List.getD_eq_getElem?_getD, ← hwf2, List.getElem?_concat_length]
    rfl
  · simp [cancel_request, hlook]
  · simp only [cancel_request, hlook]
    rw [List.getD_eq_getElem?_getD,
      List.getElem?_set_self (by simp [registerTok]; omega)]
    rfl
  · intro t ht
    simp only [cancel_request, hlook]
    rw [List.getD_eq_getElem?_getD, List.getD_eq_getElem?_getD,
      List.getElem?_set_ne (fun hk => ht hk.symm)]

/-- Witness for C10: one registered id `"r"` whose token 0 is already
signalled; re-registering creates token 1, unset, and cancelling sets only
token 1. -/
theorem c10_reregister_overwrites_witness :
    lookupTok (registerTok ⟨1, [("r", 0)], [true]⟩ "r").table "r" = some 1 ∧
      (0 : Nat) ≠ 1 ∧
      isSetVia (registerTok ⟨1, [("r", 0)], [true]⟩ "r") "r" = false ∧
      (cancel_request (registerTok ⟨1, [("r", 0)], [true]⟩ "r") "r").2 = true ∧
      (cancel_request (registerTok ⟨1, [("r", 0)], [true]⟩ "r") "r").1.sigs.getD 1 false = true ∧
      (∀ t, t ≠ 1 →
        (cancel_request (registerTok ⟨1, [("r", 0)], [true]⟩ "r") "r").1.sigs.getD t false =
          (registerTok ⟨1, [("r", 0)], [true]⟩ "r").sigs.getD t false) ∧
      (registerTok ⟨1, [("r", 0)], [true]⟩ "r").sigs.getD 0 false = true :=
  c10_reregister_overwrites ⟨1, [("r", 0)], [true]⟩ "r" 0
    (by simp) (by simp) (by simp [lookupTok])

/-- C6 counterexample.  The claim says the retryability verdict for a
rate-limit error (status 429, message containing `"rate_limit"`) is negative;
`is_retryable_error` in fact returns `true` for it, because 429 is in its
retryable status-code list. -/
theorem c6_counterexample :
    is_retryable_error (.upstream (.rateLimit "rate_limit exceeded")) = true := by
  exact rfl

/-- C6 amended.  A rate-limit failure makes the forwarder raise status
429 immediately with the classifier's message and never retry — its dedicated
`except RateLimitError` clause precedes all retry logic — but
`is_retryable_error` applied to such an error returns `true` (429 is in the
retryable status-code list), so the claim's "retryability verdict is
negative" does not hold. -/
theorem c6_rate_limit_never_retried (c : StreamCfg) (rc : Nat) (m : String) :
    handleStreamExc c rc (.upstream (.rateLimit m)) =
      .raiseH 429 (classify_openai_error m) ∧
    is_retryable_error (.upstream (.rateLimit m)) = true := by
  exact ⟨rfl, rfl⟩

/-! ### Round-trip of the serializer (claim C7) -/

/-- Conversion `Char.ofNat` is read back by `toNat` below the surrogate range. -/
theorem toNat_ofNat_lt (n : Nat) (h : n < 55296) : (Char.ofNat n).toNat = n := by
  unfold Char.ofNat
  rw [dif_pos (Or.inl h)]
  rfl

/-- Code point of a decimal digit character. -/
theorem digitCh_toNat (d : Nat) (h : d < 10) : (digitCh d).toNat = 48 + d := by
  unfold digitCh
  exact toNat_ofNat_lt _ (by omega)

/-- Decimal digit characters satisfy the digit test. -/
theorem isDigitCh_digitCh (d : Nat) (h : d < 10) : isDigitCh (digitCh d) = true := by
  simp only [isDigitCh, digitCh_toNat d h]
  simp only [Bool.and_eq_true, decide_eq_true_eq]
  omega

/-- Every entry of `natDigitsRev` is a digit. -/
theorem natDigitsRev_lt (fu : Nat) :
    ∀ n d, d ∈ natDigitsRev fu n → d < 10 := by
  induction fu with
  | zero => intro n d h; simp [natDigitsRev] at h
  | succ fu ih =>
    intro n d h
    cases n with
    | zero => simp [natDigitsRev] at h
    | succ n =>
      simp only [natDigitsRev, List.mem_cons] at h
      rcases h with h | h
      · omega
      · exact ih _ _ h

/-- Decimal `natChars` is never empty. -/
theorem natChars_ne_nil (m : Nat) : natChars m ≠ [] := by
  unfold natChars
  split
  · simp
  · rename_i hm
    cases m with
    | zero => exact absurd rfl hm
    | succ m => simp [natDigitsRev]

/-- Every character of `natChars` is a decimal digit. -/
theorem natChars_digits (m : Nat) : ∀ c ∈ natChars m, isDigitCh c = true := by
  unfold natChars
  split
  · intro c hc
    simp at hc
    subst hc
    decide
  · intro c hc
    simp only [List.mem_reverse, List.mem_map] at hc
    obtain ⟨d, hd, rfl⟩ := hc
    exact isDigitCh_digitCh d (natDigitsRev_lt _ _ _ hd)

/-- The decimal fold over `natChars m` recovers `m`. -/
theorem fold_natDigitsRev (fu : Nat) :
    ∀ n, n ≤ fu →
      (((natDigitsRev fu n).map digitCh).reverse).foldl
        (fun a c => 10 * a + (c.toNat - 48)) 0 = n := by
  induction fu with
  | zero => intro n h; interval_cases n; simp [natDigitsRev]
  | succ fu ih =>
    intro n h
    cases n with
    | zero => simp [natDigitsRev]
    | succ n =>
      have hdiv : (n + 1) / 10 ≤ fu := by
        have := Nat.div_lt_self (Nat.succ_pos n) (by omega : 1 < 10)
        omega
      simp only [natDigitsRev, List.map_cons, List.reverse_cons, List.foldl_append,
        List.foldl_cons, List.foldl_nil, ih _ hdiv]
      rw [digitCh_toNat _ (by omega)]
      omega

/-- The decimal fold over `natChars m` recovers `m`. -/
theorem fold_natChars (m : Nat) :
    (natChars m).foldl (fun a c => 10 * a + (c.toNat - 48)) 0 = m := by
  unfold natChars
  split
  · simp_all
  · exact fold_natDigitsRev m m le_rfl

/-- Splitting with `takeWhile`/`dropWhile` takes an all-satisfying prefix off exactly. -/
theorem takeWhile_append_all (p : Char → Bool) (l r : List Char)
    (hl : ∀ c ∈ l, p c = true) (hr : ∀ c l2, r = c :: l2 → p c = false) :
    (l ++ r).takeWhile p = l ∧ (l ++ r).dropWhile p = r := by
  induction l with
  | nil =>
    cases r with
    | nil => simp
    | cons c l2 => simp [List.takeWhile, List.dropWhile, hr c l2 rfl]
  | cons c l ih =>
    have hc : p c = true := hl c (by simp)
    have hrec := ih (fun c hc => hl c (by simp [hc]))
    simp [List.takeWhile, List.dropWhile, hc, hrec.1, hrec.2]

/-- Reading the digits of `natChars m` back gives `m` and the continuation. -/
theorem parseNatChars_natChars (m : Nat) (rest : List Char) (h : NdHead rest) :
    parseNatChars (natChars m ++ rest) = some (m, rest) := by
  obtain ⟨ht, hd⟩ := takeWhile_append_all isDigitCh (natChars m) rest
    (natChars_digits m) (fun c l2 hc => h c l2 hc)
  unfold parseNatChars
  rw [ht, hd]
  have hne := natChars_ne_nil m
  simp only [List.isEmpty_iff]
  rw [if_neg hne]
  rw [fold_natChars]

/-- A digit character is none of the characters the value dispatcher tests
for first, is not whitespace, and closes no bracket. -/
theorem digit_exclusions (c : Char) (h : isDigitCh c = true) :
    isWsCh c = false ∧ c ≠ 'n' ∧ c ≠ 't' ∧ c ≠ 'f' ∧ c ≠ '"' ∧ c ≠ '[' ∧
      c ≠ '\x7b' ∧ c ≠ '-' ∧ c ≠ ']' ∧ c ≠ '\x7d' := by
  simp only [isDigitCh, Bool.and_eq_true, decide_eq_true_eq] at h
  have hws : isWsCh c = false := by
    cases hw : isWsCh c
    · rfl
    · exfalso
      simp only [isWsCh, Bool.or_eq_true, decide_eq_true_eq] at hw
      rcases hw with ((h1 | h1) | h1) | h1 <;> subst h1 <;> revert h <;> decide
  refine ⟨hws, ?_, ?_, ?_, ?_, ?_, ?_, ?_, ?_, ?_⟩ <;>
    (intro he; subst he; revert h; decide)

/-- Reading `hexVal` inverts `hexDigitCh` on one hex digit. -/
theorem hexVal_hexDigitCh : ∀ m, m < 16 → hexVal (hexDigitCh m) = some m := by
  decide

/-- The string-body reader undoes `escString`, stopping at the closing
quote. -/
theorem parseStrBody_escape (s rest : List Char) :
    parseStrBody (escString s ++ '"' :: rest) = some (s, rest) := by
  induction s with
  | nil =>
    show parseStrBody ('"' :: rest) = _
    rw [parseStrBody.eq_def]
    simp
  | cons c cs ih =>
    show parseStrBody ((escapeChar c ++ escString cs) ++ '"' :: rest) = _
    rw [List.append_assoc]
    unfold escapeChar
    by_cases h1 : c = '\\'
    · subst h1
      rw [parseStrBody.eq_def]
      simp +decide [ih]
    · rw [if_neg h1]
      by_cases h2 : c = '"'
      · subst h2
        rw [parseStrBody.eq_def]
        simp +decide [ih]
      · rw [if_neg h2]
        by_cases h3 : c = Char.ofNat 8
        · subst h3
          rw [parseStrBody.eq_def]
          simp +decide [ih]
        · rw [if_neg h3]
          by_cases h4 : c = Char.ofNat 12
          · subst h4
            rw [parseStrBody.eq_def]
            simp +decide [ih]
          · rw [if_neg h4]
            by_cases h5 : c = Char.ofNat 10
            · subst h5
              rw [parseStrBody.eq_def]
              simp +decide [ih]
            · rw [if_neg h5]
              by_cases h6 : c = Char.ofNat 13
              · subst h6
                rw [parseStrBody.eq_def]
                simp +decide [ih]
              · rw [if_neg h6]
                by_cases h7 : c = Char.ofNat 9
                · subst h7
                  rw [parseStrBody.eq_def]
                  simp +decide [ih]
                · rw [if_neg h7]
                  by_cases h8 : c.toNat < 32
                  · rw [if_pos h8]
                    have e1 : hexVal '0' = some 0 := by decide
                    have e2 := hexVal_hexDigitCh (c.toNat / 16) (by omega)
                    have e3 := hexVal_hexDigitCh (c.toNat % 16) (by omega)
                    rw [parseStrBody.eq_def]
                    simp +decide [ih, e1, e2, e3]
                    conv_rhs => rw [← Char.ofNat_toNat c]
                    congr 1
                    omega
                  · rw [if_neg h8]
                    rw [parseStrBody.eq_def]
                    simp [h1, h2, ih]

/-- Leading whitespace is transparent to the value reader. -/
theorem parseVal_ws (fu : Nat) (a : Char) (s : List Char) (h : isWsCh a = true) :
    parseVal fu (a :: s) = parseVal fu s := by
  cases fu with
  | zero => rfl
  | succ fu =>
    conv_lhs => rw [parseVal.eq_def]
    conv_rhs => rw [parseVal.eq_def]
    dsimp only
    rw [show skipWs (a :: s) = skipWs s by simp [skipWs, h]]

/-- Leading whitespace is transparent to the item reader. -/
theorem parseItems_ws (fu : Nat) (a : Char) (s : List Char) (h : isWsCh a = true) :
    parseItems fu (a :: s) = parseItems fu s := by
  cases fu with
  | zero => rfl
  | succ fu =>
    conv_lhs => rw [parseItems.eq_def]
    conv_rhs => rw [parseItems.eq_def]
    dsimp only
    rw [parseVal_ws fu a s h]

/-- Leading whitespace is transparent to the member reader. -/
theorem parseMembers_ws (fu : Nat) (a : Char) (s : List Char) (h : isWsCh a = true) :
    parseMembers fu (a :: s) = parseMembers fu s := by
  cases fu with
  | zero => rfl
  | succ fu =>
    conv_lhs => rw [parseMembers.eq_def]
    conv_rhs => rw [parseMembers.eq_def]
    dsimp only
    rw [show skipWs (a :: s) = skipWs s by simp [skipWs, h]]

/-- Decimal `natChars` starts with a digit. -/
theorem natChars_head (m : Nat) :
    ∃ c l, natChars m = c :: l ∧ isDigitCh c = true := by
  cases hnc : natChars m with
  | nil => exact absurd hnc (natChars_ne_nil m)
  | cons c l =>
    refine ⟨c, l, rfl, natChars_digits m c ?_⟩
    rw [hnc]
    simp

/-- The value reader reads back a serialized integer. -/
theorem parseVal_num (fu : Nat) (n : Int) (rest : List Char) (hr : NdHead rest) :
    parseVal (fu + 1) (intChars n ++ rest) = some (.num n, rest) := by
  cases n with
  | ofNat m =>
    obtain ⟨c0, l0, heq, hd0⟩ := natChars_head m
    have excl := digit_exclusions c0 hd0
    show parseVal (fu + 1) (natChars m ++ rest) = _
    rw [heq, parseVal.eq_def, List.cons_append]
    simp only [skipWs, excl.1, Bool.false_eq_true, if_false, excl.2.1, excl.2.2.1,
      excl.2.2.2.1, excl.2.2.2.2.1, excl.2.2.2.2.2.1, excl.2.2.2.2.2.2.1,
      excl.2.2.2.2.2.2.2.1, hd0, if_true]
    rw [← List.cons_append, ← heq, parseNatChars_natChars m rest hr]
    rfl
  | negSucc m =>
    show parseVal (fu + 1) (('-' :: natChars (m + 1)) ++ rest) = _
    rw [parseVal.eq_def, List.cons_append]
    simp +decide [skipWs]
    rw [parseNatChars_natChars (m + 1) rest hr]
    simp [Int.negSucc_eq]

/-- The first character of a serialized value is never whitespace and closes
no bracket. -/
theorem printJson_head (v : Json) :
    ∃ c l, printJson v = c :: l ∧ isWsCh c = false ∧ c ≠ ']' ∧ c ≠ '\x7d' := by
  cases v with
  | null => exact ⟨'n', ['u', 'l', 'l'], by simp [printJson], by decide, by decide, by decide⟩
  | bool b =>
    cases b
    · exact ⟨'f', ['a', 'l', 's', 'e'], by simp [printJson], by decide, by decide, by decide⟩
    · exact ⟨'t', ['r', 'u', 'e'], by simp [printJson], by decide, by decide, by decide⟩
  | num n =>
    cases n with
    | ofNat m =>
      obtain ⟨c0, l0, heq, hd0⟩ := natChars_head m
      have excl := digit_exclusions c0 hd0
      exact ⟨c0, l0, by simp only [printJson, intChars]; exact heq, excl.1,
        excl.2.2.2.2.2.2.2.2.1, excl.2.2.2.2.2.2.2.2.2⟩
    | negSucc m =>
      exact ⟨'-', natChars (m + 1), by simp [printJson, intChars], by decide, by decide,
        by decide⟩
  | str s =>
    exact ⟨'"', escString s ++ ['"'], by simp [printJson, printStrLit], by decide,
      by decide, by decide⟩
  | arr vs =>
    cases vs with
    | nil => exact ⟨'[', [']'], by simp [printJson], by decide, by decide, by decide⟩
    | cons v vs' =>
      exact ⟨'[', printItems (v :: vs') ++ [']'], by simp [printJson], by decide,
        by decide, by decide⟩
  | obj fs =>
    cases fs with
    | nil => exact ⟨'\x7b', ['\x7d'], by simp [printJson], by decide, by decide, by decide⟩
    | cons f fs' =>
      exact ⟨'\x7b', printMembers (f :: fs') ++ ['\x7d'], by simp [printJson], by decide,
        by decide, by decide⟩

/-- The first character of serialized items is never whitespace and closes no
bracket. -/
theorem printItems_head (v : Json) (vs : List Json) :
    ∃ c l, printItems (v :: vs) = c :: l ∧ isWsCh c = false ∧ c ≠ ']' ∧ c ≠ '\x7d' := by
  obtain ⟨c0, l0, hpv, hnw, hne1, hne2⟩ := printJson_head v
  cases vs with
  | nil => exact ⟨c0, l0, by simp [printItems, hpv], hnw, hne1, hne2⟩
  | cons v2 vs2 =>
    refine ⟨c0, l0 ++ (',' :: ' ' :: printItems (v2 :: vs2)), ?_, hnw, hne1, hne2⟩
    simp [printItems, hpv]

/-- Serialized members start with the key's opening quote. -/
theorem printMembers_head (f : List Char × Json) (fs : List (List Char × Json)) :
    ∃ l, printMembers (f :: fs) = '"' :: l := by
  obtain ⟨k, v⟩ := f
  cases fs with
  | nil =>
    exact ⟨escString k ++ '"' :: ':' :: ' ' :: printJson v,
      by simp [printMembers, printStrLit]⟩
  | cons f2 fs2 =>
    exact ⟨escString k ++ '"' :: ':' :: ' ' :: (printJson v ++ ',' :: ' ' ::
      printMembers (f2 :: fs2)), by simp [printMembers, printStrLit]⟩

/-- Every value has positive decoder fuel demand. -/
theorem jsize_pos (v : Json) : 1 ≤ jsize v := by
  cases v <;> simp [jsize]

/-- A continuation starting with a non-digit satisfies `NdHead`. -/
theorem ndHead_cons (c : Char) (l : List Char) (h : isDigitCh c = false) :
    NdHead (c :: l) := by
  intro c2 l2 he
  cases he
  exact h

/-- The decoder reads back exactly what the serializer produced, for values,
item lists and member lists, given fuel covering the value's size. -/
theorem parse_print (fu : Nat) :
    (∀ v rest, jsize v ≤ fu → NdHead rest →
      parseVal fu (printJson v ++ rest) = some (v, rest)) ∧
    (∀ vs rest, vs ≠ [] → jsizeItems vs ≤ fu →
      parseItems fu (printItems vs ++ ']' :: rest) = some (vs, rest)) ∧
    (∀ fs rest, fs ≠ [] → jsizeMembers fs ≤ fu →
      parseMembers fu (printMembers fs ++ '\x7d' :: rest) = some (fs, rest)) := by
  induction fu with
  | zero =>
    refine ⟨fun v rest hsz _ => ?_, fun vs rest hne hsz => ?_, fun fs rest hne hsz => ?_⟩
    · have := jsize_pos v
      omega
    · cases vs with
      | nil => exact absurd rfl hne
      | cons v vs' =>
        simp only [jsizeItems] at hsz
        omega
    · cases fs with
      | nil => exact absurd rfl hne
      | cons f fs' =>
        obtain ⟨k, v⟩ := f
        simp only [jsizeMembers] at hsz
        omega
  | succ fu ih =>
    obtain ⟨ihV, ihI, ihM⟩ := ih
    refine ⟨fun v rest hsz hnd => ?_, fun vs rest hne hsz => ?_, fun fs rest hne hsz => ?_⟩
    · cases v with
      | null =>
        rw [show printJson Json.null = ['n', 'u', 'l', 'l'] from by simp [printJson]]
        rw [parseVal.eq_def]
        simp +decide [skipWs]
      | bool b =>
        cases b
        · rw [show printJson (Json.bool false) = ['f', 'a', 'l', 's', 'e'] from by
            simp [printJson]]
          rw [parseVal.eq_def]
          simp +decide [skipWs]
        · rw [show printJson (Json.bool true) = ['t', 'r', 'u', 'e'] from by
            simp [printJson]]
          rw [parseVal.eq_def]
          simp +decide [skipWs]
      | num n =>
        rw [show printJson (Json.num n) = intChars n from by simp [printJson]]
        exact parseVal_num fu n rest hnd
      | str s =>
        rw [show printJson (Json.str s) ++ rest = '"' :: (escString s ++ '"' :: rest)
          from by simp [printJson, printStrLit]]
        rw [parseVal.eq_def]
        dsimp only
        rw [show skipWs ('"' :: (escString s ++ '"' :: rest)) =
          '"' :: (escString s ++ '"' :: rest) from by simp +decide [skipWs]]
        dsimp only
        rw [if_neg (by decide : ¬('"' : Char) = 'n'),
          if_neg (by decide : ¬('"' : Char) = 't'),
          if_neg (by decide : ¬('"' : Char) = 'f'), if_pos rfl,
          parseStrBody_escape s rest]
        rfl
      | arr vs =>
        cases vs with
        | nil =>
          rw [show printJson (Json.arr []) = ['[', ']'] from by simp [printJson]]
          rw [parseVal.eq_def]
          simp +decide [skipWs]
        | cons v vs' =>
          have hsz' : jsizeItems (v :: vs') ≤ fu := by
            simp only [jsize] at hsz
            omega
          obtain ⟨c0, l0, hpi, hnw, hne1, _⟩ := printItems_head v vs'
          rw [show printJson (Json.arr (v :: vs')) ++ rest =
            '[' :: (printItems (v :: vs') ++ ']' :: rest) from by simp [printJson]]
          rw [parseVal.eq_def]
          dsimp only
          rw [show skipWs ('[' :: (printItems (v :: vs') ++ ']' :: rest)) =
            '[' :: (printItems (v :: vs') ++ ']' :: rest) from by simp +decide [skipWs]]
          dsimp only
          rw [if_neg (by decide : ¬('[' : Char) = 'n'),
            if_neg (by decide : ¬('[' : Char) = 't'),
            if_neg (by decide : ¬('[' : Char) = 'f'),
            if_neg (by decide : ¬('[' : Char) = '"'), if_pos rfl]
          rw [hpi, List.cons_append]
          rw [show skipWs (c0 :: (l0 ++ ']' :: rest)) = c0 :: (l0 ++ ']' :: rest)
            from by simp [skipWs, hnw]]
          dsimp only
          rw [if_neg hne1]
          rw [← List.cons_append, ← hpi, ihI (v :: vs') rest (by simp) hsz']
          rfl
      | obj fs =>
        cases fs with
        | nil =>
          rw [show printJson (Json.obj []) = ['\x7b', '\x7d'] from by simp [printJson]]
          rw [parseVal.eq_def]
          simp +decide [skipWs]
        | cons f fs' =>
          have hsz' : jsizeMembers (f :: fs') ≤ fu := by
            simp only [jsize] at hsz
            omega
          obtain ⟨l1, hpm⟩ := printMembers_head f fs'
          rw [show printJson (Json.obj (f :: fs')) ++ rest =
            '\x7b' :: (printMembers (f :: fs') ++ '\x7d' :: rest) from by simp [printJson]]
          rw [parseVal.eq_def]
          dsimp only
          rw [show skipWs ('\x7b' :: (printMembers (f :: fs') ++ '\x7d' :: rest)) =
            '\x7b' :: (printMembers (f :: fs') ++ '\x7d' :: rest)
            from by simp +decide [skipWs]]
          dsimp only
          rw [if_neg (by decide : ¬('\x7b' : Char) = 'n'),
            if_neg (by decide : ¬('\x7b' : Char) = 't'),
            if_neg (by decide : ¬('\x7b' : Char) = 'f'),
            if_neg (by decide : ¬('\x7b' : Char) = '"'),
            if_neg (by decide : ¬('\x7b' : Char) = '['), if_pos rfl]
          rw [hpm, List.cons_append]
          rw [show skipWs ('"' :: (l1 ++ '\x7d' :: rest)) = '"' :: (l1 ++ '\x7d' :: rest)
            from by simp +decide [skipWs]]
          dsimp only
          rw [if_neg (by decide : ¬('"' : Char) = '\x7d')]
          rw [← List.cons_append, ← hpm, ihM (f :: fs') rest (by simp) hsz']
          rfl
    · cases vs with
      | nil => exact absurd rfl hne
      | cons v vs' =>
        cases vs' with
        | nil =>
          have h1 : jsize v ≤ fu := by
            simp only [jsizeItems] at hsz
            omega
          rw [show printItems [v] = printJson v from by simp [printItems]]
          rw [parseItems.eq_def]
          dsimp only
          rw [ihV v (']' :: rest) h1 (ndHead_cons _ _ (by decide))]
          dsimp only
          rw [show skipWs (']' :: rest) = ']' :: rest from by simp +decide [skipWs]]
          rfl
        | cons v2 vs2 =>
          have hp := jsize_pos v
          have hp2 : 1 ≤ jsizeItems (v2 :: vs2) := by
            simp only [jsizeItems]
            omega
          have h1 : jsize v ≤ fu := by
            simp only [jsizeItems] at hsz
            omega
          have h2 : jsizeItems (v2 :: vs2) ≤ fu := by
            simp only [jsizeItems] at hsz ⊢
            omega
          rw [show printItems (v :: v2 :: vs2) ++ ']' :: rest =
            printJson v ++ (',' :: ' ' :: (printItems (v2 :: vs2) ++ ']' :: rest))
            from by simp [printItems]]
          rw [parseItems.eq_def]
          dsimp only
          rw [ihV v _ h1 (ndHead_cons _ _ (by decide))]
          dsimp only
          rw [show skipWs (',' :: ' ' :: (printItems (v2 :: vs2) ++ ']' :: rest)) =
            ',' :: ' ' :: (printItems (v2 :: vs2) ++ ']' :: rest)
            from by simp +decide [skipWs]]
          dsimp only
          rw [if_pos rfl]
          rw [parseItems_ws fu ' ' _ (by decide), ihI (v2 :: vs2) rest (by simp) h2]
          rfl
    · cases fs with
      | nil => exact absurd rfl hne
      | cons f fs' =>
        obtain ⟨k, v⟩ := f
        cases fs' with
        | nil =>
          have h1 : jsize v ≤ fu := by
            simp only [jsizeMembers] at hsz
            omega
          rw [show printMembers [(k, v)] ++ '\x7d' :: rest =
            '"' :: (escString k ++ '"' :: (':' :: ' ' :: (printJson v ++ '\x7d' :: rest)))
            from by simp [printMembers, printStrLit]]
          rw [parseMembers.eq_def]
          dsimp only
          rw [show skipWs ('"' :: (escString k ++ '"' ::
            (':' :: ' ' :: (printJson v ++ '\x7d' :: rest)))) =
            '"' :: (escString k ++ '"' :: (':' :: ' ' :: (printJson v ++ '\x7d' :: rest)))
            from by simp +decide [skipWs]]
          dsimp only
          rw [if_pos rfl]
          rw [parseStrBody_escape k (':' :: ' ' :: (printJson v ++ '\x7d' :: rest))]
          dsimp only
          rw [show skipWs (':' :: ' ' :: (printJson v ++ '\x7d' :: rest)) =
            ':' :: ' ' :: (printJson v ++ '\x7d' :: rest) from by simp +decide [skipWs]]
          dsimp only
          rw [if_pos rfl]
          rw [parseVal_ws fu ' ' _ (by decide),
            ihV v ('\x7d' :: rest) h1 (ndHead_cons _ _ (by decide))]
          rfl
        | cons f2 fs2 =>
          have hp := jsize_pos v
          obtain ⟨k2, v2⟩ := f2
          have hp2 : 1 ≤ jsizeMembers ((k2, v2) :: fs2) := by
            simp only [jsizeMembers]
            omega
          have h1 : jsize v ≤ fu := by
            simp only [jsizeMembers] at hsz
            omega
          have h2 : jsizeMembers ((k2, v2) :: fs2) ≤ fu := by
            simp only [jsizeMembers] at hsz ⊢
            omega
          rw [show printMembers ((k, v) :: (k2, v2) :: fs2) ++ '\x7d' :: rest =
            '"' :: (escString k ++ '"' :: (':' :: ' ' :: (printJson v ++
              (',' :: ' ' :: (printMembers ((k2, v2) :: fs2) ++ '\x7d' :: rest)))))
            from by simp [printMembers, printStrLit]]
          rw [parseMembers.eq_def]
          dsimp only
          rw [show skipWs ('"' :: (escString k ++ '"' :: (':' :: ' ' :: (printJson v ++
              (',' :: ' ' :: (printMembers ((k2, v2) :: fs2) ++ '\x7d' :: rest)))))) =
            '"' :: (escString k ++ '"' :: (':' :: ' ' :: (printJson v ++
              (',' :: ' ' :: (printMembers ((k2, v2) :: fs2) ++ '\x7d' :: rest)))))
            from by simp +decide [skipWs]]
          dsimp only
          rw [if_pos rfl]
          rw [parseStrBody_escape k]
          dsimp only
          rw [show skipWs (':' :: ' ' :: (printJson v ++
              (',' :: ' ' :: (printMembers ((k2, v2) :: fs2) ++ '\x7d' :: rest)))) =
            ':' :: ' ' :: (printJson v ++
              (',' :: ' ' :: (printMembers ((k2, v2) :: fs2) ++ '\x7d' :: rest)))
            from by simp +decide [skipWs]]
          dsimp only
          rw [if_pos rfl]
          rw [parseVal_ws fu ' ' _ (by decide),
            ihV v _ h1 (ndHead_cons _ _ (by decide))]
          dsimp only
          rw [show skipWs (',' :: ' ' :: (printMembers ((k2, v2) :: fs2) ++ '\x7d' :: rest)) =
            ',' :: ' ' :: (printMembers ((k2, v2) :: fs2) ++ '\x7d' :: rest)
            from by simp +decide [skipWs]]
          dsimp only
          rw [if_pos rfl]
          rw [parseMembers_ws fu ' ' _ (by decide),
            ihM ((k2, v2) :: fs2) rest (by simp) h2]
          rfl

/-- Decimal `intChars` is never empty. -/
theorem intChars_ne_nil (n : Int) : intChars n ≠ [] := by
  cases n with
  | ofNat m => exact natChars_ne_nil m
  | negSucc m => simp [intChars]

/-- A value's fuel demand is bounded by its serialized length (with one unit
of slack for lists). -/
theorem sizes_le (n : Nat) :
    (∀ v, jsize v ≤ n → jsize v ≤ (printJson v).length) ∧
    (∀ vs, vs ≠ [] → jsizeItems vs ≤ n →
      jsizeItems vs ≤ (printItems vs).length + 1) ∧
    (∀ fs, fs ≠ [] → jsizeMembers fs ≤ n →
      jsizeMembers fs ≤ (printMembers fs).length + 1) := by
  induction n with
  | zero =>
    refine ⟨fun v hsz => ?_, fun vs hne hsz => ?_, fun fs hne hsz => ?_⟩
    · have := jsize_pos v
      omega
    · cases vs with
      | nil => exact absurd rfl hne
      | cons v vs' =>
        simp only [jsizeItems] at hsz
        omega
    · cases fs with
      | nil => exact absurd rfl hne
      | cons f fs' =>
        obtain ⟨k, v⟩ := f
        simp only [jsizeMembers] at hsz
        omega
  | succ n ih =>
    obtain ⟨ihV, ihI, ihM⟩ := ih
    refine ⟨fun v hsz => ?_, fun vs hne hsz => ?_, fun fs hne hsz => ?_⟩
    · cases v with
      | null => simp [jsize, printJson]
      | bool b => cases b <;> simp [jsize, printJson]
      | num m =>
        simp only [jsize, printJson]
        have hne := intChars_ne_nil m
        have := List.length_pos.mpr hne
        omega
      | str s =>
        simp only [jsize, printJson, printStrLit, List.length_cons]
        omega
      | arr vs =>
        cases vs with
        | nil => simp [jsize, jsizeItems, printJson]
        | cons v vs' =>
          have hI := ihI (v :: vs') (by simp) (by simp only [jsize] at hsz; omega)
          simp only [jsize, printJson, List.length_cons, List.length_append,
            List.length_singleton]
          omega
      | obj fs =>
        cases fs with
        | nil => simp [jsize, jsizeMembers, printJson]
        | cons f fs' =>
          have hM := ihM (f :: fs') (by simp) (by simp only [jsize] at hsz; omega)
          simp only [jsize, printJson, List.length_cons, List.length_append,
            List.length_singleton]
          omega
    · cases vs with
      | nil => exact absurd rfl hne
      | cons v vs' =>
        have hv := ihV v (by
          simp only [jsizeItems] at hsz
          omega)
        cases vs' with
        | nil =>
          simp only [jsizeItems, printItems] at hsz ⊢
          omega
        | cons v2 vs2 =>
          have hI := ihI (v2 :: vs2) (by simp) (by
            have := jsize_pos v
            simp only [jsizeItems] at hsz ⊢
            omega)
          have hg : jsizeItems (v2 :: vs2) = 1 + jsize v2 + jsizeItems vs2 := by
            simp only [jsizeItems]
          simp only [jsizeItems, printItems, List.length_append, List.length_cons] at hsz ⊢
          omega
    · cases fs with
      | nil => exact absurd rfl hne
      | cons f fs' =>
        obtain ⟨k, v⟩ := f
        have hv := ihV v (by
          simp only [jsizeMembers] at hsz
          omega)
        cases fs' with
        | nil =>
          simp only [jsizeMembers, printMembers, List.length_append, List.length_cons] at hsz ⊢
          omega
        | cons f2 fs2 =>
          obtain ⟨k2, v2⟩ := f2
          have hM := ihM ((k2, v2) :: fs2) (by simp) (by
            have := jsize_pos v
            simp only [jsizeMembers] at hsz ⊢
            omega)
          have hg : jsizeMembers ((k2, v2) :: fs2) = 1 + jsize v2 + jsizeMembers fs2 := by
            simp only [jsizeMembers]
          simp only [jsizeMembers, printMembers, List.length_append, List.length_cons] at hsz ⊢
          omega

/-- The decoder reads back any serialized value whole. -/
theorem jsonDecode_print (u : Json) : jsonDecode (printJson u) = some u := by
  unfold jsonDecode
  have hlen := (sizes_le (jsize u)).1 u le_rfl
  have h := (parse_print ((printJson u).length + 1)).1 u [] (by omega)
    (by intro c2 l2 h2; cases h2)
  rw [List.append_nil] at h
  rw [h]
  simp [skipWs]

/-- With no registered token and a cleanly exhausting attempt, the loop
yields every framed chunk and the terminator, reaches the cleanup block, and
ends the generator. -/
theorem streamIter_success (c : StreamCfg) (sig : Nat → Bool) (att : Nat → Attempt)
    (fuel rc ck : Nat) (le : Option PyExc) (hrc : rc ≤ maxEff c)
    (hs : (att rc).2 = none) :
    streamIter c false sig att (fuel + 1) rc le ck =
      ⟨((att rc).1.map fun u => .yield (frameChunk u)) ++ [.yield doneLine],
        .ok, true⟩ := by
  simp only [streamIter]
  rw [if_neg (by omega)]
  simp only [runChunks_noId, hs, Option.or]
  cases le with
  | none => rfl
  | some e =>
    simp only [postLoop]
    rw [if_neg (by omega)]

/-- C7.  Framing round-trip: every upstream unit is framed as the line
`data: ` followed by its exact JSON serialization, JSON-decoding that payload
yields the unit back, and a streaming call whose upstream attempt exhausts
normally yields exactly the framed chunks followed by the literal terminator
`data: [DONE]`. -/
theorem c7_frame_roundtrip (u : Json) (c : StreamCfg) (reg : List String)
    (sig : Nat → Bool) (chunks : List Json) (req : List (List Char × Json)) :
    frameChunk u = "data: " ++ jsonSerialize u ∧
    jsonDecode (jsonSerialize u).data = some u ∧
    (create_chat_completion_stream c reg none sig (fun _ => (chunks, none)) req).run.events
      = (chunks.map fun v => .yield (frameChunk v)) ++ [.yield doneLine] := by
  refine ⟨rfl, jsonDecode_print u, ?_⟩
  show (streamIter c false sig (fun _ => (chunks, none)) (maxEff c + 1) 0 none 0).events = _
  rw [streamIter_success c sig (fun _ => (chunks, none)) (maxEff c) 0 0 none
    (by omega) rfl]

end ProxyClient
